import Mathlib

/-!
Shallow embedding of the weather-data-download repository (Python 2),
covering the URL/version resolution engine (src/wdata/merra.py and the
legacy src/merra.py), the download scheduler (src/wdata/utils.py) and the
per-year consolidation pass, together with proofs of the frozen claims.
-/

namespace WData

/-!  ## Dates

Python datetime.date compares as the lexicographic order on the tuple
(year, month, day).  We embed a date as that triple of naturals and the
comparisons as the tuple comparisons Python performs. -/

structure Date where
  year : Nat
  month : Nat
  day : Nat
deriving DecidableEq, Repr

/-- Python a < b on dates: lexicographic comparison of (year, month, day). -/
def dateLt (a b : Date) : Bool :=
  decide (a.year < b.year ∨ (a.year = b.year ∧
    (a.month < b.month ∨ (a.month = b.month ∧ a.day < b.day))))

/-- Python a >= b on dates: lexicographic comparison of (year, month, day). -/
def dateGe (a b : Date) : Bool :=
  decide (a.year > b.year ∨ (a.year = b.year ∧
    (a.month > b.month ∨ (a.month = b.month ∧ a.day ≥ b.day))))

/-- Python a <= b on dates. -/
def dateLe (a b : Date) : Bool :=
  decide (a.year < b.year ∨ (a.year = b.year ∧
    (a.month < b.month ∨ (a.month = b.month ∧ a.day ≤ b.day))))

theorem dateLe_refl (a : Date) : dateLe a a = true := by
  simp [dateLe]

theorem dateGe_of_ge_of_le {x b b' : Date} (h1 : dateGe x b = true)
    (h2 : dateLe b' b = true) : dateGe x b' = true := by
  rcases x with ⟨y, m, d⟩; rcases b with ⟨y', m', d'⟩; rcases b' with ⟨y'', m'', d''⟩
  simp only [dateGe, dateLe, decide_eq_true_eq] at h1 h2 ⊢
  omega

theorem not_dateGe_of_lt_of_le {x b b' : Date} (h1 : dateLt x b = true)
    (h2 : dateLe b b' = true) : dateGe x b' = false := by
  rcases x with ⟨y, m, d⟩; rcases b with ⟨y', m', d'⟩; rcases b' with ⟨y'', m'', d''⟩
  simp only [dateGe, dateLt, dateLe, decide_eq_true_eq] at h1 h2 ⊢
  simp only [decide_eq_false_iff_not]
  omega

theorem dateGe_false_of_lt {x b : Date} (h : dateLt x b = true) :
    dateGe x b = false :=
  not_dateGe_of_lt_of_le h (dateLe_refl b)

/-!  ## Epoch version resolution

src/wdata/merra.py, create_url (lines 116-120):

    merra_version = 100
    for b in settings version_breakpoints:
        if date >= b:
            merra_version += 100
    merra_version += revision

(the revision is added by the caller of merraVersionLoop below). -/

/-- The breakpoint loop of create_url: start at 100 and add 100 for every
breakpoint that the date has reached. -/
def merraVersionLoop (date : Date) (breakpoints : List Date) : Nat :=
  breakpoints.foldl (fun v b => if dateGe date b then v + 100 else v) 100

theorem merraVersionLoop_foldl (date : Date) (bps : List Date) :
    ∀ init : Nat, bps.foldl (fun v b => if dateGe date b then v + 100 else v) init =
      init + 100 * bps.countP (fun b => dateGe date b) := by
  induction bps with
  | nil => intro init; simp
  | cons b rest ih =>
    intro init
    simp only [List.foldl_cons, List.countP_cons, ih]
    by_cases h : dateGe date b = true
    · simp only [h, if_true]
      omega
    · have h' : dateGe date b = false := by simpa using h
      simp only [h', if_false, Bool.false_eq_true]
      omega

theorem merraVersionLoop_eq_countP (date : Date) (bps : List Date) :
    merraVersionLoop date bps = 100 + 100 * bps.countP (fun b => dateGe date b) :=
  merraVersionLoop_foldl date bps 100

theorem countP_dateGe_sorted (date : Date) (bps : List Date)
    (hs : bps.Pairwise fun a b => dateLe a b = true) :
    ∀ k, (hk : k + 1 < bps.length) →
      dateGe date (bps.get ⟨k, by omega⟩) = true →
      dateLt date (bps.get ⟨k + 1, hk⟩) = true →
      bps.countP (fun b => dateGe date b) = k + 1 := by
  induction bps with
  | nil => intro k hk; simp at hk
  | cons b rest ih =>
    intro k hk hge hlt
    rcases List.pairwise_cons.mp hs with ⟨hble, hrest⟩
    cases k with
    | zero =>
      have hb : dateGe date b = true := by simpa using hge
      have hr0lt : dateLt date (rest.get ⟨0, by simp at hk; omega⟩) = true := by
        simpa using hlt
      have hzero : rest.countP (fun c => dateGe date c) = 0 := by
        rw [List.countP_eq_zero]
        intro c hc
        match rest, hk, hr0lt with
        | r :: rr, _, hr0lt =>
          simp only [List.get] at hr0lt
          rcases List.mem_cons.mp hc with rfl | hcrr
          · simp [dateGe_false_of_lt hr0lt]
          · have hle : dateLe r c = true := (List.pairwise_cons.mp hrest).1 c hcrr
            simp [not_dateGe_of_lt_of_le hr0lt hle]
      simp [List.countP_cons, hb, hzero]
    | succ k' =>
      have hk' : k' + 1 < rest.length := by simp at hk; omega
      have hge' : dateGe date (rest.get ⟨k', by omega⟩) = true := by
        simpa [List.get_cons_succ] using hge
      have hlt' : dateLt date (rest.get ⟨k' + 1, hk'⟩) = true := by
        simpa [List.get_cons_succ] using hlt
      have hb : dateGe date b = true := by
        have hmem : rest.get ⟨k', by omega⟩ ∈ rest := List.get_mem rest k' (by omega)
        exact dateGe_of_ge_of_le hge' (hble _ hmem)
      have hcount : rest.countP (fun c => dateGe date c) = k' + 1 :=
        ih hrest k' hk' hge' hlt'
      simp [List.countP_cons, hb, hcount]

/-- Claim C1: for every date and every revision, with the breakpoint list
sorted ascending, if the date is before the first breakpoint the resolved
epoch version is 100 + revision, and if the date is on or after breakpoint k
(0-indexed) and before breakpoint k+1 the version is 100*(k+2) + revision. -/
theorem create_url_epoch_version (date : Date) (bps : List Date) (revision : Nat)
    (hs : bps.Pairwise fun a b => dateLe a b = true) :
    (∀ hne : bps ≠ [], dateLt date (bps.head hne) = true →
      merraVersionLoop date bps + revision = 100 + revision) ∧
    (∀ k, ∀ hk : k + 1 < bps.length,
      dateGe date (bps.get ⟨k, by omega⟩) = true →
      dateLt date (bps.get ⟨k + 1, hk⟩) = true →
      merraVersionLoop date bps + revision = 100 * (k + 2) + revision) := by
  constructor
  · intro hne hlt
    rw [merraVersionLoop_eq_countP]
    have hcount : bps.countP (fun b => dateGe date b) = 0 := by
      rw [List.countP_eq_zero]
      intro b hb
      match bps, hne, hs, hlt, hb with
      | b0 :: rest, _, hs, hlt, hb =>
        simp only [List.head] at hlt
        rcases List.mem_cons.mp hb with rfl | hbr
        · simp [dateGe_false_of_lt hlt]
        · have hle : dateLe b0 b = true := (List.pairwise_cons.mp hs).1 b hbr
          simp [not_dateGe_of_lt_of_le hlt hle]
    omega
  · intro k hk hge hlt
    rw [merraVersionLoop_eq_countP, countP_dateGe_sorted date bps hs k hk hge hlt]
    omega

/-- Witness for claim C1: the merra breakpoint table, a date between the
first and second breakpoints, revision 7. -/
theorem create_url_epoch_version_witness :
    merraVersionLoop ⟨1995, 6, 15⟩ [⟨1993, 1, 1⟩, ⟨2001, 1, 1⟩] + 7 = 100 * 2 + 7 :=
  (create_url_epoch_version ⟨1995, 6, 15⟩ [⟨1993, 1, 1⟩, ⟨2001, 1, 1⟩] 7
    (by decide)).2 0 (by decide) (by decide) (by decide)

/-!  ## String formatting helpers

Python string formatting pieces used by the templates in src/wdata/merra.py
and src/merra.py. -/

/-- Python format spec 02d applied to a natural number: pad with a leading
zero to width two. -/
def fmt02 (n : Nat) : String :=
  if n < 10 then "0" ++ toString n else toString n

/-!  ## Python 2 urllib.urlencode

urlencode(query) renders each key/value pair as quote_plus(str(k)) ++ "="
++ quote_plus(str(v)) and joins the pairs with ampersands.  quote percent
encodes every byte outside the always-safe set (letters, digits,
underscore, dot, hyphen) as a percent sign followed by two uppercase hex
digits; quote_plus additionally turns spaces into plus signs. -/

def alwaysSafe : List Char :=
  "ABCDEFGHIJKLMNOPQRSTUVWXYZabcdefghijklmnopqrstuvwxyz0123456789_.-".data

def hexUpper (n : Nat) : Char := "0123456789ABCDEF".data.getD n '0'

def quoteChar (c : Char) : String :=
  if alwaysSafe.contains c then String.singleton c
  else "%" ++ String.singleton (hexUpper (c.toNat / 16)) ++
    String.singleton (hexUpper (c.toNat % 16))

def quote (s : String) : String := String.join (s.data.map quoteChar)

/-- quote_plus: if the string contains a space, quote it with space kept
safe and then replace each space by a plus sign (equivalently: map spaces
to plus and quote everything else); otherwise plain quote. -/
def quotePlus (s : String) : String :=
  if s.data.contains ' ' then
    String.join (s.data.map (fun c => if c = ' ' then "+" else quoteChar c))
  else quote s

def urlencode (l : List (String × String)) : String :=
  String.intercalate "&" (l.map (fun kv => quotePlus kv.1 ++ "=" ++ quotePlus kv.2))

/-- CPython 2.7 iterates the eight-key dict literal merra_args of create_url
in hash-table order.  The dict literal is built by BUILD_MAP presized to 16
slots; for these eight string keys (string hash without randomization, the
standard open-addressing probe) the resulting iteration order is VERSION,
BBOX, SERVICE, FORMAT, VARIABLES, LABEL, SHORTNAME, FILENAME - this is the
order urlencode sees and the order the acceptance test in
src/test/test_merra.py records.  It is deterministic: it depends only on
the key strings. -/
def merraArgsIterKeys : List String :=
  ["VERSION", "BBOX", "SERVICE", "FORMAT", "VARIABLES", "LABEL", "SHORTNAME", "FILENAME"]

/-- Re-order an association list into the iteration order of the CPython
dict that holds it. -/
def dictItems (l : List (String × String)) (order : List String) :
    List (String × String) :=
  order.filterMap (fun k => (l.lookup k).map (fun v => (k, v)))

/-!  ## Presets (src/wdata/merra.py lines 12-81)

Only the merra preset is needed by the claims.  The bounding-box
coordinates are Python numbers (ints and the float 42.5) that create_url
renders with str-formatting; we embed each coordinate as its exact
rendering (str(30) is 30, str(-15) is -15, str(42.5) is 42.5). -/

structure DatatypeSpec where
  vars : List String
  dataset : String
  shortname : String
  data_version : String

/-- Arguments available to the filename and label templates:
the fields of the datatype spec together with ext, date and the resolved
merra_version. -/
structure FmtArgs where
  shortname : String
  data_version : String
  dataset : String
  date : Date
  merra_version : Nat
  ext : String

structure Settings where
  datatypes : List (String × DatatypeSpec)
  fileformats : List (String × (String × String))
  version_breakpoints : List Date
  service : String
  version : String
  filename : FmtArgs → String
  label : FmtArgs → String
  base_url : String

/-- The wind datatype of the merra preset; the variables list is the
comprehension over the product of v,u and 2,10,50 followed by disph. -/
def merraWind : DatatypeSpec :=
  { vars := (["v", "u"].flatMap fun d => ["2", "10", "50"].map fun h => d ++ h ++ "m")
      ++ ["disph"]
    dataset := "tavg1_2d_slv_Nx"
    shortname := "MAT1NXSLV"
    data_version := "5.2.0" }

def merraSolar : DatatypeSpec :=
  { vars := ["ts", "albedo", "albvisdf", "albvisdr", "swtdn", "swgdn"]
    dataset := "tavg1_2d_rad_Nx"
    shortname := "MAT1NXRAD"
    data_version := "5.2.0" }

/-- The merra filename template rendered on its arguments. -/
def merraFilename (a : FmtArgs) : String :=
  "/data/s4pa/MERRA/" ++ a.shortname ++ "." ++ a.data_version ++ "/" ++
    toString a.date.year ++ "/" ++ fmt02 a.date.month ++ "/MERRA" ++
    toString a.merra_version ++ ".prod.assim." ++ a.dataset ++ "." ++
    toString a.date.year ++ fmt02 a.date.month ++ fmt02 a.date.day ++ "." ++ a.ext

/-- The merra label template rendered on its arguments. -/
def merraLabel (a : FmtArgs) : String :=
  "MERRA" ++ toString a.merra_version ++ ".prod.assim." ++ a.dataset ++ "." ++
    toString a.date.year ++ fmt02 a.date.month ++ fmt02 a.date.day ++ ".SUB." ++ a.ext

def merraSettings : Settings :=
  { datatypes := [("wind", merraWind), ("solar", merraSolar)]
    fileformats := [("hdf", ("SERGLw", "hdf")), ("nc", ("TmV0Q0RGLw", "nc")),
      ("default", ("SERGLw", "hdf"))]
    version_breakpoints := [⟨1993, 1, 1⟩, ⟨2001, 1, 1⟩]
    service := "SUBSET_LATS4D"
    version := "1.02"
    filename := merraFilename
    label := merraLabel
    base_url := "http://goldsmr2.sci.gsfc.nasa.gov/daac-bin/OTF/HTTP_services.cgi?" }

/-- BBOX_PRESETS (src/wdata/merra.py line 79): the europe preset is the
tuple (30, -15, 75, 42.5), embedded as the str renderings of its entries. -/
def BBOX_PRESETS : List (String × List String) :=
  [("europe", ["30", "-15", "75", "42.5"])]

/-- The bbox argument of create_url is either a string key or a tuple; the
tuple entries are embedded as their str renderings. -/
inductive BBoxArg where
  | name (s : String)
  | tup (parts : List String)

/-- Python exceptions that the embedded code can raise. -/
inductive PyErr where
  | keyError (k : String)
  | indexError
  | valueError
  | shapeMismatch
  | argumentError
  | typeError
  | urlNotFound (url : String)
  | httpError
  | noWorkingArgument
deriving DecidableEq, Repr

/-- Dictionary subscript: a missing key raises KeyError. -/
def pyGet (m : List (String × α)) (k : String) : Except PyErr α :=
  match m.lookup k with
  | some v => .ok v
  | none => .error (.keyError k)

/-- The sequence create_url unpacks into the bbox format string: a preset
key resolves through BBOX_PRESETS; any other value is used directly, a
string unpacking into its characters. -/
def bboxTup (bbox : BBoxArg) : List String :=
  match bbox with
  | .name s =>
    match BBOX_PRESETS.lookup s with
    | some t => t
    | none => s.data.map (fun c => String.singleton c)
  | .tup t => t

/-- Python format of the bbox pattern with star-unpacked arguments: the
first four entries joined by commas; fewer than four raises IndexError,
surplus entries are ignored by str.format. -/
def formatBBoxStr (parts : List String) : Except PyErr String :=
  match parts with
  | a :: b :: c :: d :: _ => .ok (a ++ "," ++ b ++ "," ++ c ++ "," ++ d)
  | _ => .error .indexError

/-- create_url of src/wdata/merra.py (lines 83-136): resolve the bbox,
look up the file format and datatype, resolve the epoch version, render
the templates and urlencode the argument dict.  Returns the URL and the
label. -/
def create_url (date : Date) (datatype : String) (settings : Settings)
    (filefmt : String) (revision : Nat) (bbox : BBoxArg) :
    Except PyErr (String × String) := do
  let bbox_str ← formatBBoxStr (bboxTup bbox)
  let (fmt_code, ext) ← pyGet settings.fileformats filefmt
  let dt ← pyGet settings.datatypes datatype
  let merra_version := merraVersionLoop date settings.version_breakpoints + revision
  let fargs : FmtArgs :=
    { shortname := dt.shortname, data_version := dt.data_version,
      dataset := dt.dataset, date := date, merra_version := merra_version, ext := ext }
  let labelStr := settings.label fargs
  let merra_args : List (String × String) :=
    [("BBOX", bbox_str),
     ("FILENAME", settings.filename fargs),
     ("FORMAT", fmt_code),
     ("LABEL", labelStr),
     ("VARIABLES", String.intercalate "," dt.vars),
     ("VERSION", settings.version),
     ("SHORTNAME", dt.shortname),
     ("SERVICE", settings.service)]
  pure (settings.base_url ++ urlencode (dictItems merra_args merraArgsIterKeys), labelStr)

set_option maxRecDepth 20000 in
/-- Claim C2: on the fixed sample input of the acceptance test
(1979-01-01, wind, merra preset, hdf, revision 0, bbox (30,-15,75,42.5)),
create_url returns exactly the literal URL recorded in
src/test/test_merra.py, byte for byte. -/
theorem create_url_acceptance :
    create_url ⟨1979, 1, 1⟩ "wind" merraSettings "hdf" 0
      (.tup ["30", "-15", "75", "42.5"]) =
    .ok ("http://goldsmr2.sci.gsfc.nasa.gov/daac-bin/OTF/HTTP_services.cgi?VERSION=1.02&BBOX=30%2C-15%2C75%2C42.5&SERVICE=SUBSET_LATS4D&FORMAT=SERGLw&VARIABLES=v2m%2Cv10m%2Cv50m%2Cu2m%2Cu10m%2Cu50m%2Cdisph&LABEL=MERRA100.prod.assim.tavg1_2d_slv_Nx.19790101.SUB.hdf&SHORTNAME=MAT1NXSLV&FILENAME=%2Fdata%2Fs4pa%2FMERRA%2FMAT1NXSLV.5.2.0%2F1979%2F01%2FMERRA100.prod.assim.tavg1_2d_slv_Nx.19790101.hdf",
      "MERRA100.prod.assim.tavg1_2d_slv_Nx.19790101.SUB.hdf") := by
  rfl

/-- Truth of an Except being a success. -/
def exceptIsOk (e : Except PyErr (String × String)) : Bool :=
  match e with
  | .ok _ => true
  | .error _ => false

/-- Counterexample for claim C7: the name sweden is not in the preset
table, yet create_url produces a URL (its bbox field becomes the first
four characters of the name); no UnknownPreset error exists in the code. -/
theorem bbox_unknown_name_counterexample :
    BBOX_PRESETS.lookup "sweden" = none ∧
    exceptIsOk (create_url ⟨1979, 1, 1⟩ "wind" merraSettings "hdf" 0
      (.name "sweden")) = true := by
  constructor
  · rfl
  · rfl

/-- Claim C7 as amended: a bounding-box name absent from the preset table
is not rejected with an UnknownPreset error; the name string itself is
used as the coordinate sequence, so a name of at least four characters
yields a URL, namely the percent-encoding of a query whose BBOX
parameter is the first four characters of the name joined by commas,
while a shorter name raises an IndexError from the format call. -/
theorem bbox_unknown_name_amended (s : String) (d : Date) (rev : Nat)
    (hnp : BBOX_PRESETS.lookup s = none) :
    (∀ c1 c2 c3 c4 rest, s.data = c1 :: c2 :: c3 :: c4 :: rest →
      ∃ items label,
        create_url d "wind" merraSettings "hdf" rev (.name s) =
          .ok (merraSettings.base_url ++ urlencode items, label) ∧
        items.lookup "BBOX" =
          some (String.singleton c1 ++ "," ++ String.singleton c2 ++ "," ++
            String.singleton c3 ++ "," ++ String.singleton c4)) ∧
    (s.data.length < 4 →
      create_url d "wind" merraSettings "hdf" rev (.name s) = .error .indexError) := by
  have hbb : bboxTup (.name s) = s.data.map (fun c => String.singleton c) := by
    simp [bboxTup, hnp]
  constructor
  · intro c1 c2 c3 c4 rest hsd
    refine ⟨dictItems
      [("BBOX", String.singleton c1 ++ "," ++ String.singleton c2 ++ "," ++
          String.singleton c3 ++ "," ++ String.singleton c4),
       ("FILENAME", merraFilename ⟨"MAT1NXSLV", "5.2.0", "tavg1_2d_slv_Nx", d,
          merraVersionLoop d merraSettings.version_breakpoints + rev, "hdf"⟩),
       ("FORMAT", "SERGLw"),
       ("LABEL", merraLabel ⟨"MAT1NXSLV", "5.2.0", "tavg1_2d_slv_Nx", d,
          merraVersionLoop d merraSettings.version_breakpoints + rev, "hdf"⟩),
       ("VARIABLES", String.intercalate "," merraWind.vars),
       ("VERSION", "1.02"),
       ("SHORTNAME", "MAT1NXSLV"),
       ("SERVICE", "SUBSET_LATS4D")] merraArgsIterKeys,
      merraLabel ⟨"MAT1NXSLV", "5.2.0", "tavg1_2d_slv_Nx", d,
        merraVersionLoop d merraSettings.version_breakpoints + rev, "hdf"⟩,
      ?_, ?_⟩
    · simp [create_url, hbb, hsd, formatBBoxStr, pyGet, merraSettings,
        merraWind, Bind.bind, Except.bind, pure, Except.pure, List.lookup]
    · rfl
  · intro hlen
    match hsd : s.data with
    | [] =>
      simp [create_url, hbb, hsd, formatBBoxStr, Bind.bind, Except.bind]
    | [x] =>
      simp [create_url, hbb, hsd, formatBBoxStr, Bind.bind, Except.bind]
    | [x, y] =>
      simp [create_url, hbb, hsd, formatBBoxStr, Bind.bind, Except.bind]
    | [x, y, z] =>
      simp [create_url, hbb, hsd, formatBBoxStr, Bind.bind, Except.bind]
    | a :: b :: c :: e :: rest =>
      rw [hsd] at hlen
      simp at hlen
      omega

/-- Witness for the amended claim C7, at the concrete name norge. -/
theorem bbox_unknown_name_amended_witness :
    (∀ c1 c2 c3 c4 rest, "norge".data = c1 :: c2 :: c3 :: c4 :: rest →
      ∃ items label,
        create_url ⟨1979, 1, 1⟩ "wind" merraSettings "hdf" 0 (.name "norge") =
          .ok (merraSettings.base_url ++ urlencode items, label) ∧
        items.lookup "BBOX" =
          some (String.singleton c1 ++ "," ++ String.singleton c2 ++ "," ++
            String.singleton c3 ++ "," ++ String.singleton c4)) ∧
    ("norge".data.length < 4 →
      create_url ⟨1979, 1, 1⟩ "wind" merraSettings "hdf" 0 (.name "norge") =
        .error .indexError) :=
  bbox_unknown_name_amended "norge" ⟨1979, 1, 1⟩ 0 (by rfl)

/-!  ## The legacy URL builder (src/merra.py)

The legacy module hardcodes what the current module reads from the preset
table: the two breakpoints as an if-chain, the filename and label
templates, the service and version constants, and the default bounding
box and data format. -/

/-- Variables of the legacy WIND_PRESET (src/merra.py line 13). -/
def legacyWindVars : List String :=
  (["v", "u"].flatMap fun d => ["2", "10", "50"].map fun h => d ++ h ++ "m") ++ ["disph"]

/-- Variables of the legacy SOLAR_PRESET (src/merra.py line 19). -/
def legacySolarVars : List String :=
  ["ts", "albedo", "albvisdf", "albvisdr", "swtdn", "swgdn"]

/-- Version selection of the legacy create_url (src/merra.py lines 48-61):
an if-chain over the two hardcoded breakpoints. -/
def legacy_merra_version (date : Date) : Nat :=
  if dateLt date ⟨1993, 1, 1⟩ then 100
  else if dateLt date ⟨2001, 1, 1⟩ then 200
  else 300

/-- create_url of the legacy src/merra.py (lines 26-81).  The FILENAME
template hardcodes the hdf extension while the LABEL template uses the
extension of the data format tuple. -/
def legacy_create_url (date : Date) (dataset shortname : String)
    (vars : List String) (revision : Nat) (dataformat : String × String)
    (bbox : List String) (dataset_version : String) :
    Except PyErr (String × String) := do
  let (fmt_code, ext) := dataformat
  let bbox_str ← formatBBoxStr bbox
  let merra_version := legacy_merra_version date + revision
  let filename := "/data/s4pa/MERRA/" ++ shortname ++ "." ++ dataset_version ++ "/" ++
    toString date.year ++ "/" ++ fmt02 date.month ++ "/MERRA" ++
    toString merra_version ++ ".prod.assim." ++ dataset ++ "." ++
    toString date.year ++ fmt02 date.month ++ fmt02 date.day ++ ".hdf"
  let label := "MERRA" ++ toString merra_version ++ ".prod.assim." ++ dataset ++ "." ++
    toString date.year ++ fmt02 date.month ++ fmt02 date.day ++ ".SUB." ++ ext
  let merra_args : List (String × String) :=
    [("BBOX", bbox_str),
     ("FILENAME", filename),
     ("FORMAT", fmt_code),
     ("LABEL", label),
     ("VARIABLES", String.intercalate "," vars),
     ("VERSION", "1.02"),
     ("SHORTNAME", shortname),
     ("SERVICE", "SUBSET_LATS4D")]
  pure ("http://goldsmr2.sci.gsfc.nasa.gov" ++ "/daac-bin/OTF/HTTP_services.cgi?" ++
    urlencode (dictItems merra_args merraArgsIterKeys), label)

theorem dateLt_eq_not_dateGe (a b : Date) : dateLt a b = !dateGe a b := by
  rcases a with ⟨y, m, d⟩; rcases b with ⟨y', m', d'⟩
  simp only [dateLt, dateGe, ← decide_not, decide_eq_decide]
  omega

theorem legacy_version_eq (date : Date) :
    legacy_merra_version date =
      merraVersionLoop date merraSettings.version_breakpoints := by
  have hlt93 := dateLt_eq_not_dateGe date ⟨1993, 1, 1⟩
  have hlt01 := dateLt_eq_not_dateGe date ⟨2001, 1, 1⟩
  cases hge93 : dateGe date ⟨1993, 1, 1⟩ with
  | false =>
    cases hge01 : dateGe date ⟨2001, 1, 1⟩ with
    | false =>
      simp [legacy_merra_version, merraVersionLoop, merraSettings,
        hlt93, hlt01, hge93, hge01]
    | true =>
      have h := dateGe_of_ge_of_le hge01
        (show dateLe ⟨1993, 1, 1⟩ ⟨2001, 1, 1⟩ = true from by decide)
      rw [hge93] at h
      simp at h
  | true =>
    cases hge01 : dateGe date ⟨2001, 1, 1⟩ with
    | false =>
      simp [legacy_merra_version, merraVersionLoop, merraSettings,
        hlt93, hlt01, hge93, hge01]
    | true =>
      simp [legacy_merra_version, merraVersionLoop, merraSettings,
        hlt93, hlt01, hge93, hge01]

/-- Claim C10: for every date and revision, the legacy builder (wind or
solar preset, data format SERGLw/hdf, default dataset version) and the
current builder (merra preset, hdf format) resolve the same epoch version
number and produce the same output label. -/
theorem legacy_refines_current (date : Date) (revision : Nat) :
    legacy_merra_version date + revision =
      merraVersionLoop date merraSettings.version_breakpoints + revision ∧
    Except.map Prod.snd (legacy_create_url date "tavg1_2d_slv_Nx" "MAT1NXSLV"
        legacyWindVars revision ("SERGLw", "hdf") ["30", "-15", "75", "42.5"] "5.2.0") =
      Except.map Prod.snd (create_url date "wind" merraSettings "hdf" revision
        (.name "europe")) ∧
    Except.map Prod.snd (legacy_create_url date "tavg1_2d_rad_Nx" "MAT1NXRAD"
        legacySolarVars revision ("SERGLw", "hdf") ["30", "-15", "75", "42.5"] "5.2.0") =
      Except.map Prod.snd (create_url date "solar" merraSettings "hdf" revision
        (.name "europe")) := by
  have hv := legacy_version_eq date
  refine ⟨by omega, ?_, ?_⟩
  · simp [legacy_create_url, create_url, formatBBoxStr, bboxTup, BBOX_PRESETS,
      pyGet, List.lookup, merraSettings, merraLabel, merraWind, Except.map,
      Bind.bind, Except.bind, pure, Except.pure, hv]
  · simp [legacy_create_url, create_url, formatBBoxStr, bboxTup, BBOX_PRESETS,
      pyGet, List.lookup, merraSettings, merraLabel, merraSolar, Except.map,
      Bind.bind, Except.bind, pure, Except.pure, hv]

/-!  ## The download engine (src/wdata/utils.py and download_date)

The transport is an oracle mapping a URL to the outcome of urlopen: a
success with a body, an HTTP 404 (which dlfile converts into
URLNotFoundException), or another HTTPError (which the retry decorator
around dlfile catches and retries).  The file system and the log of
transport invocations are threaded explicitly; Python exceptions become
the error side of the returned pair, and state mutated before an
exception persists, as it does in Python. -/

inductive FetchResult where
  | ok (content : String)
  | notFound
  | httpOther
deriving DecidableEq, Repr

/-- Observable download events: the Downloaded and Skipping log lines of
try_download_revision in download_date. -/
inductive Event where
  | downloaded (date : Date)
  | skippedExisting (date : Date)
deriving DecidableEq, Repr

/-- State threaded through the engine: the local files (name, content),
the list of URLs passed to the transport, and the emitted events. -/
structure FS where
  files : List (String × String)
  fetched : List String
  events : List Event
deriving DecidableEq, Repr

def isFile (files : List (String × String)) (name : String) : Bool :=
  (files.lookup name).isSome

/-- Opening a local file for writing and writing the body: the entry for
the name is replaced (or created). -/
def setFile (files : List (String × String)) (name content : String) :
    List (String × String) :=
  (name, content) :: files.filter (fun kv => kv.1 != name)

/-- One attempt of dlfile (src/wdata/utils.py lines 91-111): call the
transport; on success write the body to the local file; a 404 becomes
URLNotFoundException; any other HTTPError propagates to the retry
decorator.  The local file is only opened after urlopen succeeds, so a
failed attempt writes nothing. -/
def dlfileAttempt (transport : String → FetchResult) (url fname : String)
    (s : FS) : FS × Except PyErr Unit :=
  let s' : FS := { s with fetched := s.fetched ++ [url] }
  match transport url with
  | .ok content => ({ s' with files := setFile s'.files fname content }, .ok ())
  | .notFound => (s', .error (.urlNotFound url))
  | .httpOther => (s', .error .httpError)

/-- The retry decorator (src/wdata/utils.py lines 17-47) with tries
attempts: while more than one try remains, call the function and catch
HTTPError (sleeping between tries); the final call is unprotected.  Any
other exception propagates immediately. -/
def retryHTTP (tries : Nat) (f : FS → FS × Except PyErr Unit) (s : FS) :
    FS × Except PyErr Unit :=
  match tries with
  | 0 => f s
  | 1 => f s
  | n + 2 =>
    match f s with
    | (s', .error .httpError) => retryHTTP (n + 1) f s'
    | r => r

/-- dlfile is decorated with retry(HTTPError, 10). -/
def dlfile (transport : String → FetchResult) (url fname : String) :
    FS → FS × Except PyErr Unit :=
  retryHTTP 10 (dlfileAttempt transport url fname)

/-- The keyword arguments download_date forwards to create_url, plus the
destination directory and the skip flag. -/
structure DlArgs where
  dest : String
  skip_existing : Bool
  settings : Settings
  datatype : String
  filefmt : String
  bbox : BBoxArg

/-- try_download_revision inside download_date (src/wdata/merra.py lines
186-194): build the URL and label, join the target path, and unless the
target exists and skipping is enabled, download; otherwise log the skip. -/
def try_download_revision (transport : String → FetchResult) (a : DlArgs)
    (date : Date) (revision : Nat) (s : FS) : FS × Except PyErr Unit :=
  match create_url date a.datatype a.settings a.filefmt revision a.bbox with
  | .error e => (s, .error e)
  | .ok (url, label) =>
    let target := a.dest ++ "/" ++ label
    if !(isFile s.files target && a.skip_existing) then
      match dlfile transport url target s with
      | (s', .ok _) => ({ s' with events := s'.events ++ [.downloaded date] }, .ok ())
      | r => r
    else
      ({ s with events := s.events ++ [.skippedExisting date] }, .ok ())

def isUrlNotFound : PyErr → Bool
  | .urlNotFound _ => true
  | _ => false

/-- retry_with_args (src/wdata/utils.py lines 170-189) specialized to the
exception class download_date passes (URLNotFoundException): call the
function on each argument in turn, moving on when it raises that class,
returning its value on the first success, letting any other exception
propagate, and raising the generic no-working-argument exception when the
list is exhausted. -/
def retry_with_args (f : Nat → FS → FS × Except PyErr Unit) (args : List Nat)
    (s : FS) : FS × Except PyErr Unit :=
  match args with
  | [] => (s, .error .noWorkingArgument)
  | a :: rest =>
    match f a s with
    | (s', .ok u) => (s', .ok u)
    | (s', .error e) =>
      if isUrlNotFound e then retry_with_args f rest s' else (s', .error e)

/-- download_date (src/wdata/merra.py lines 176-199): try the revisions
0, 1, 2 in order. -/
def download_date (transport : String → FetchResult) (a : DlArgs) (date : Date)
    (s : FS) : FS × Except PyErr Unit :=
  retry_with_args (try_download_revision transport a date) [0, 1, 2] s

/-- Worker.run (src/wdata/utils.py lines 122-129) catches every exception
a task raises, logs it, and marks the task done, so the pool keeps
consuming tasks. -/
def run_task (t : FS → FS × Except PyErr Unit) (s : FS) : FS × Option PyErr :=
  match t s with
  | (s', .ok _) => (s', none)
  | (s', .error e) => (s', some e)

/-- The batch of download (src/wdata/merra.py lines 162-173): each date
becomes a task on the pool; we model the four workers consuming the queue
as one serialization of the task stream, which the per-date claims are
insensitive to.  The result pairs each date with the exception its task
raised, if any. -/
def run_batch (transport : String → FetchResult) (a : DlArgs) :
    List Date → FS → FS × List (Date × Option PyErr)
  | [], s => (s, [])
  | d :: rest, s =>
    let (s', r) := run_task (download_date transport a d) s
    let (s'', rs) := run_batch transport a rest s'
    (s'', (d, r) :: rs)

/-- The arguments of the wind/hdf/europe download with skipping as given. -/
def windArgs (dest : String) (skip : Bool) : DlArgs :=
  { dest := dest, skip_existing := skip, settings := merraSettings,
    datatype := "wind", filefmt := "hdf", bbox := .name "europe" }

/-- The URL create_url resolves for a wind/hdf/europe request. -/
def windUrl (d : Date) (rev : Nat) : String :=
  match create_url d "wind" merraSettings "hdf" rev (.name "europe") with
  | .ok (url, _) => url
  | .error _ => ""

/-- The label create_url resolves for a wind/hdf/europe request. -/
def windLabel (d : Date) (rev : Nat) : String :=
  match create_url d "wind" merraSettings "hdf" rev (.name "europe") with
  | .ok (_, label) => label
  | .error _ => ""

theorem create_url_wind_ok (d : Date) (rev : Nat) :
    create_url d "wind" merraSettings "hdf" rev (.name "europe") =
      .ok (windUrl d rev, windLabel d rev) := rfl

theorem try_download_revision_notFound (transport : String → FetchResult)
    (dest : String) (d : Date) (rev : Nat) (s : FS)
    (h : transport (windUrl d rev) = .notFound) :
    try_download_revision transport (windArgs dest false) d rev s =
      ({ s with fetched := s.fetched ++ [windUrl d rev] },
        .error (.urlNotFound (windUrl d rev))) := by
  simp [try_download_revision, windArgs, create_url_wind_ok, dlfile, retryHTTP,
    dlfileAttempt, h]

theorem try_download_revision_ok (transport : String → FetchResult)
    (dest : String) (d : Date) (rev : Nat) (content : String) (s : FS)
    (h : transport (windUrl d rev) = .ok content) :
    try_download_revision transport (windArgs dest false) d rev s =
      ({ files := setFile s.files (dest ++ "/" ++ windLabel d rev) content,
         fetched := s.fetched ++ [windUrl d rev],
         events := s.events ++ [.downloaded d] }, .ok ()) := by
  simp [try_download_revision, windArgs, create_url_wind_ok, dlfile, retryHTTP,
    dlfileAttempt, h]

/-- Claim C3: for every date whose revision 0 and 1 URLs are not found and
whose revision 2 URL succeeds, download_date terminates successfully having
fetched exactly the three revision URLs in order and written the file under
the revision 2 label, a label that embeds the revision 2 epoch version
number. -/
theorem download_date_revision_fallback (transport : String → FetchResult)
    (dest : String) (d : Date) (content : String) (s : FS)
    (h0 : transport (windUrl d 0) = .notFound)
    (h1 : transport (windUrl d 1) = .notFound)
    (h2 : transport (windUrl d 2) = .ok content) :
    download_date transport (windArgs dest false) d s =
      ({ files := setFile s.files (dest ++ "/" ++ windLabel d 2) content,
         fetched := s.fetched ++ [windUrl d 0, windUrl d 1, windUrl d 2],
         events := s.events ++ [.downloaded d] }, .ok ()) ∧
    windLabel d 2 = "MERRA" ++
      toString (merraVersionLoop d merraSettings.version_breakpoints + 2) ++
      ".prod.assim." ++ "tavg1_2d_slv_Nx" ++ "." ++ toString d.year ++
      fmt02 d.month ++ fmt02 d.day ++ ".SUB." ++ "hdf" := by
  constructor
  · rw [download_date, retry_with_args,
      try_download_revision_notFound transport dest d 0 s h0]
    simp only [isUrlNotFound, if_true]
    rw [retry_with_args,
      try_download_revision_notFound transport dest d 1 _ h1]
    simp only [isUrlNotFound, if_true]
    rw [retry_with_args,
      try_download_revision_ok transport dest d 2 content _ h2]
    simp [List.append_assoc]
  · rfl

/-- Witness transport for claim C3: revision 2 of 1980-01-02 exists, all
other URLs are missing. -/
def c3Transport : String → FetchResult := fun url =>
  if url = windUrl ⟨1980, 1, 2⟩ 2 then .ok "body" else .notFound

set_option maxRecDepth 100000 in
/-- Witness for claim C3 at the date 1980-01-02 and an empty initial
state. -/
theorem download_date_revision_fallback_witness :
    download_date c3Transport (windArgs "data" false) ⟨1980, 1, 2⟩ ⟨[], [], []⟩ =
      ({ files := setFile [] ("data" ++ "/" ++ windLabel ⟨1980, 1, 2⟩ 2) "body",
         fetched := [] ++ [windUrl ⟨1980, 1, 2⟩ 0, windUrl ⟨1980, 1, 2⟩ 1,
           windUrl ⟨1980, 1, 2⟩ 2],
         events := [] ++ [.downloaded ⟨1980, 1, 2⟩] }, .ok ()) ∧
    windLabel ⟨1980, 1, 2⟩ 2 = "MERRA" ++
      toString (merraVersionLoop ⟨1980, 1, 2⟩ merraSettings.version_breakpoints + 2) ++
      ".prod.assim." ++ "tavg1_2d_slv_Nx" ++ "." ++ toString (1980 : Nat) ++
      fmt02 1 ++ fmt02 2 ++ ".SUB." ++ "hdf" :=
  download_date_revision_fallback c3Transport "data" ⟨1980, 1, 2⟩ "body" ⟨[], [], []⟩
    (by decide) (by decide) (by decide)

theorem download_date_all_notFound (transport : String → FetchResult)
    (dest : String) (d : Date) (s : FS)
    (h0 : transport (windUrl d 0) = .notFound)
    (h1 : transport (windUrl d 1) = .notFound)
    (h2 : transport (windUrl d 2) = .notFound) :
    download_date transport (windArgs dest false) d s =
      ({ s with fetched := s.fetched ++ [windUrl d 0, windUrl d 1, windUrl d 2] },
        .error .noWorkingArgument) := by
  rw [download_date, retry_with_args,
    try_download_revision_notFound transport dest d 0 s h0]
  simp only [isUrlNotFound, if_true]
  rw [retry_with_args,
    try_download_revision_notFound transport dest d 1 _ h1]
  simp only [isUrlNotFound, if_true]
  rw [retry_with_args,
    try_download_revision_notFound transport dest d 2 _ h2]
  simp only [isUrlNotFound, if_true]
  rw [retry_with_args]
  simp [List.append_assoc]

theorem run_batch_map_fst (transport : String → FetchResult) (a : DlArgs) :
    ∀ (dates : List Date) (s : FS),
      ((run_batch transport a dates s).2).map Prod.fst = dates := by
  intro dates
  induction dates with
  | nil => intro s; rfl
  | cons e rest ih =>
    intro s
    simp only [run_batch]
    rcases hx : run_task (download_date transport a e) s with ⟨s', r⟩
    rcases hy : run_batch transport a rest s' with ⟨s'', rs⟩
    simp only [List.map_cons, List.map]
    have := ih s'
    rw [hy] at this
    simpa using this

/-- Claim C4: in a batch, a date whose three revisions are all not found
is reported with the no-working-argument exception (caught and logged by
the worker), and the batch never aborts: every date of the batch appears
in the outcome list, in order. -/
theorem batch_notfound_continues (transport : String → FetchResult)
    (dest : String) (dates : List Date) (d : Date) (s : FS) (hd : d ∈ dates)
    (h0 : transport (windUrl d 0) = .notFound)
    (h1 : transport (windUrl d 1) = .notFound)
    (h2 : transport (windUrl d 2) = .notFound) :
    ((run_batch transport (windArgs dest false) dates s).2).map Prod.fst = dates ∧
    ∀ p ∈ (run_batch transport (windArgs dest false) dates s).2,
      p.1 = d → p.2 = some .noWorkingArgument := by
  refine ⟨run_batch_map_fst transport (windArgs dest false) dates s, ?_⟩
  clear hd
  induction dates generalizing s with
  | nil => intro p hp; simp [run_batch] at hp
  | cons e rest ih =>
    intro p hp hpd
    simp only [run_batch] at hp
    rcases hx : run_task (download_date transport (windArgs dest false) e) s
      with ⟨s', r⟩
    rw [hx] at hp
    rcases hy : run_batch transport (windArgs dest false) rest s' with ⟨s'', rs⟩
    rw [hy] at hp
    simp only [List.mem_cons] at hp
    rcases hp with rfl | hprs
    · have he : e = d := by simpa using hpd
      subst he
      have hr := hx
      rw [run_task, download_date_all_notFound transport dest e s h0 h1 h2] at hr
      have hsnd := congrArg Prod.snd hr
      simpa using hsnd.symm
    · have := ih s' p
      rw [hy] at this
      exact this hprs hpd

/-- Witness for claim C4: a two-date batch where every URL is missing. -/
theorem batch_notfound_continues_witness :
    ((run_batch (fun _ => .notFound) (windArgs "data" false)
        [⟨1980, 1, 1⟩, ⟨1980, 1, 2⟩] ⟨[], [], []⟩).2).map Prod.fst =
      [⟨1980, 1, 1⟩, ⟨1980, 1, 2⟩] ∧
    ∀ p ∈ (run_batch (fun _ => .notFound) (windArgs "data" false)
        [⟨1980, 1, 1⟩, ⟨1980, 1, 2⟩] ⟨[], [], []⟩).2,
      p.1 = ⟨1980, 1, 2⟩ → p.2 = some .noWorkingArgument :=
  batch_notfound_continues (fun _ => .notFound) "data"
    [⟨1980, 1, 1⟩, ⟨1980, 1, 2⟩] ⟨1980, 1, 2⟩ ⟨[], [], []⟩
    (by decide) (by decide) (by decide) (by decide)

/-- Claim C5: with skip-existing enabled and the target file of the first
revision label already present, download_date reports the skip event and
returns without invoking the transport or touching the file list. -/
theorem download_date_skip_existing (transport : String → FetchResult)
    (dest : String) (d : Date) (s : FS)
    (hex : isFile s.files (dest ++ "/" ++ windLabel d 0) = true) :
    download_date transport (windArgs dest true) d s =
      ({ s with events := s.events ++ [.skippedExisting d] }, .ok ()) := by
  rw [download_date, retry_with_args]
  simp [try_download_revision, windArgs, create_url_wind_ok, hex]

set_option maxRecDepth 100000 in
/-- Witness for claim C5: the revision 0 target of 1980-01-02 already
exists in the local file list. -/
theorem download_date_skip_existing_witness :
    download_date (fun _ => .notFound) (windArgs "data" true) ⟨1980, 1, 2⟩
      ⟨[("data" ++ "/" ++ windLabel ⟨1980, 1, 2⟩ 0, "old")], [], []⟩ =
      ({ files := [("data" ++ "/" ++ windLabel ⟨1980, 1, 2⟩ 0, "old")],
         fetched := [],
         events := [] ++ [.skippedExisting ⟨1980, 1, 2⟩] }, .ok ()) :=
  download_date_skip_existing (fun _ => .notFound) "data" ⟨1980, 1, 2⟩
    ⟨[("data" ++ "/" ++ windLabel ⟨1980, 1, 2⟩ 0, "old")], [], []⟩ (by decide)

/-!  ## The calendar (Python datetime at day and hour resolution)

Python datetime.date.toordinal counts days in the proleptic Gregorian
calendar with January 1 of year 1 as day 1.  A midnight datetime is
embedded as 24 times the ordinal of its date; the differences the
consolidator computes (total_seconds divided by 3600, and the hourly
range of a year) are exactly differences of these hour counts. -/

/-- Gregorian leap-year rule, as implemented by the Python calendar. -/
def isLeapYear (y : Nat) : Bool := (y % 4 == 0 && y % 100 != 0) || y % 400 == 0

/-- Days in all years before year y (the standard ordinal formula). -/
def daysBeforeYear (y : Nat) : Nat :=
  365 * (y - 1) + (y - 1) / 4 - (y - 1) / 100 + (y - 1) / 400

/-- Month lengths of a year. -/
def daysInMonthList (y : Nat) : List Nat :=
  [31, if isLeapYear y then 29 else 28, 31, 30, 31, 30, 31, 31, 30, 31, 30, 31]

/-- Days in the months of year y before month m. -/
def daysBeforeMonth (y m : Nat) : Nat :=
  ((daysInMonthList y).take (m - 1)).foldl (· + ·) 0

/-- Python date.toordinal. -/
def toOrdinal (d : Date) : Nat :=
  daysBeforeYear d.year + daysBeforeMonth d.year d.month + d.day

/-- A midnight datetime as a count of hours. -/
def dtHours (d : Date) : Nat := 24 * toOrdinal d

/-- hourrange of src/wdata/utils.py (lines 63-77): yield each hour from
the start time while it is below the end time. -/
def hourrange (s e : Nat) : List Nat :=
  if h : s < e then s :: hourrange (s + 1) e else []
termination_by e - s

/-- The hour list clean_merra builds for a group year (src/wdata/merra.py
lines 234-238): hourrange from midnight January 1 of the year to midnight
January 1 of the next year. -/
def yearHours (y : Nat) : List Nat :=
  hourrange (dtHours ⟨y, 1, 1⟩) (dtHours ⟨y + 1, 1, 1⟩)

/-- to_timestamp of src/wdata/utils.py (lines 80-89) on a midnight hour
count: seconds since the epoch. -/
def to_timestamp (h : Nat) : Int := 3600 * ((h : Int) - (dtHours ⟨1970, 1, 1⟩ : Int))

theorem hourrange_length_aux (e : Nat) :
    ∀ n s, e - s = n → (hourrange s e).length = n := by
  intro n
  induction n with
  | zero =>
    intro s h
    rw [hourrange, dif_neg (by omega)]
    rfl
  | succ k ih =>
    intro s h
    rw [hourrange, dif_pos (by omega)]
    simp only [List.length_cons]
    rw [ih (s + 1) (by omega)]

theorem hourrange_length (s e : Nat) : (hourrange s e).length = e - s :=
  hourrange_length_aux e (e - s) s rfl

theorem daysBeforeYear_succ (y : Nat) (hy : 1 ≤ y) :
    daysBeforeYear (y + 1) = daysBeforeYear y + (if isLeapYear y then 366 else 365) := by
  obtain ⟨z, rfl⟩ : ∃ z, y = z + 1 := ⟨y - 1, by omega⟩
  unfold daysBeforeYear isLeapYear
  simp only [Nat.add_sub_cancel]
  rw [Nat.succ_div, Nat.succ_div, Nat.succ_div]
  simp only [Bool.or_eq_true, Bool.and_eq_true, beq_iff_eq, bne_iff_ne]
  split_ifs <;> omega

/-- Claim C8: for every year, the hourly axis the consolidator builds has
exactly 8784 entries in a leap year and 8760 otherwise. -/
theorem yearHours_length (y : Nat) (hy : 1 ≤ y) :
    (yearHours y).length = if isLeapYear y then 8784 else 8760 := by
  rw [yearHours, hourrange_length]
  have hd := daysBeforeYear_succ y hy
  simp only [dtHours, toOrdinal, daysBeforeMonth, Nat.sub_self, List.take_zero,
    List.foldl_nil]
  split_ifs at hd ⊢ with hleap
  · omega
  · omega

/-- Witness for claim C8: the leap year 1980 and the ordinary year 1981. -/
theorem yearHours_length_witness :
    ((yearHours 1980).length = if isLeapYear 1980 then 8784 else 8760) ∧
    ((yearHours 1981).length = if isLeapYear 1981 then 8784 else 8760) :=
  ⟨yearHours_length 1980 (by omega), yearHours_length 1981 (by omega)⟩

/-!  ## The filename patterns of clean_merra (src/wdata/merra.py 226-232)

The year regex is MERRA, three digits, a literal .prod.assim, one
arbitrary character (the dot after assim is unescaped), the dataset name,
a literal dot, a four-digit year capture, four more digits, a literal
dot, then any characters up to a literal dot and the extension; the date
regex is the same shape with one eight-digit date capture.  re.search
applies the pattern at the leftmost position where it matches; the
captures do not depend on the greedy tail. -/

def isDigitCh (c : Char) : Bool := decide ('0' ≤ c ∧ c ≤ '9')

/-- Consume a literal character sequence. -/
def peelLit : List Char → List Char → Option (List Char)
  | [], cs => some cs
  | _ :: _, [] => none
  | l :: ls, c :: cs => if c = l then peelLit ls cs else none

/-- Consume exactly n digits, returning them and the remainder. -/
def peelDigits : Nat → List Char → Option (List Char × List Char)
  | 0, cs => some ([], cs)
  | _ + 1, [] => none
  | n + 1, c :: cs =>
    if isDigitCh c then (peelDigits n cs).map (fun p => (c :: p.1, p.2)) else none

/-- Consume one arbitrary character of an unescaped regex dot: any
character except a newline. -/
def peelAny : List Char → Option (List Char)
  | [] => none
  | c :: cs => if c = Char.ofNat 10 then none else some cs

/-- The dot-star dot-extension tail of both regexes: the remainder must
contain a literal dot followed by the extension, with no newline before
it.  The text after the match is unconstrained because the pattern is
unanchored. -/
def dotExtTail (ext : List Char) : List Char → Bool
  | [] => false
  | c :: cs =>
    (peelLit (Char.ofNat 46 :: ext) (c :: cs)).isSome ||
      (!(c = Char.ofNat 10) && dotExtTail ext cs)

/-- Attempt the year regex at the head of the character list, returning
the dataset and year captures. -/
def matchYStart (ds ext : List Char) (cs : List Char) : Option (String × String) := do
  let r1 ← peelLit ("MERRA".data) cs
  let (_, r2) ← peelDigits 3 r1
  let r3 ← peelLit (".prod.assim".data) r2
  let r4 ← peelAny r3
  let r5 ← peelLit ds r4
  let r6 ← peelLit [Char.ofNat 46] r5
  let (ychars, r7) ← peelDigits 4 r6
  let (_, r8) ← peelDigits 4 r7
  let r9 ← peelLit [Char.ofNat 46] r8
  if dotExtTail ext r9 then pure (String.mk ds, String.mk ychars) else none

/-- Attempt the date regex at the head of the character list, returning
the eight-digit date capture. -/
def matchDStart (ds ext : List Char) (cs : List Char) : Option String := do
  let r1 ← peelLit ("MERRA".data) cs
  let (_, r2) ← peelDigits 3 r1
  let r3 ← peelLit (".prod.assim".data) r2
  let r4 ← peelAny r3
  let r5 ← peelLit ds r4
  let r6 ← peelLit [Char.ofNat 46] r5
  let (dchars, r7) ← peelDigits 8 r6
  let r8 ← peelLit [Char.ofNat 46] r7
  if dotExtTail ext r8 then pure (String.mk dchars) else none

/-- re.search: try the pattern at each position from the left, returning
the first match. -/
def reSearch (f : List Char → Option α) : List Char → Option α
  | [] => f []
  | c :: cs =>
    match f (c :: cs) with
    | some r => some r
    | none => reSearch f cs

/-!  ## group_by_tuple (src/wdata/utils.py lines 147-167)

itertools.groupby groups consecutive elements with equal key; the key
function searches the regex and returns the captured tuple, logging a
warning and returning None when the pattern does not match. -/

/-- Consecutive grouping by key, as itertools.groupby produces it. -/
def groupByKey [DecidableEq κ] (kf : String → Option κ) :
    List String → List (Option κ × List String)
  | [] => []
  | x :: xs =>
    match groupByKey kf xs with
    | [] => [(kf x, [x])]
    | (k, g) :: rest =>
      if kf x = k then (k, x :: g) :: rest else (kf x, [x]) :: (k, g) :: rest

/-- The files the key function warns about: those on which the regex
finds no match (the keyfunc logs one warning per such element). -/
def classifyWarnings (kf : String → Option κ) (files : List String) : List String :=
  files.filter (fun f => (kf f).isNone)

/-!  ## The consolidation pass of clean_merra (src/wdata/merra.py 234-280)

The HDF input files and the HDF5 output store are abstracted over the
axis value type and the per-hour grid slab type; a variable dataset of a
day file is its list of per-timestep slabs, and a variable dataset of the
output store is its list of per-hour slabs.  create_dataset zero-fills,
embedded as replication of a designated zero slab. -/

/-- An input day file: its path, whether opening it raises HDF4Error, and
the time, latitude, longitude and variable datasets. -/
structure H4File (α β : Type) where
  path : String
  corrupt : Bool
  time : List Int
  lats : List α
  longs : List α
  vars : List (String × List β)

/-- The per-year output store. -/
structure OutFile (α β : Type) where
  latitude : Option (List α)
  longitude : Option (List α)
  time : Option (List Int)
  dsets : List (String × List β)

def emptyOutFile {α β : Type} : OutFile α β := ⟨none, none, none, []⟩

def lowerStr (s : String) : String := String.mk (s.data.map Char.toLower)

/-- os.path.basename: the part of the path after the last slash. -/
def basename (s : String) : String :=
  String.mk ((s.data.reverse.takeWhile (fun c => !(c = Char.ofNat 47))).reverse)

def digitsToNat (cs : List Char) : Nat :=
  cs.foldl (fun n c => 10 * n + (c.toNat - 48)) 0

def isValidDate (y m d : Nat) : Bool :=
  decide (1 ≤ y ∧ 1 ≤ m ∧ m ≤ 12 ∧ 1 ≤ d ∧ d ≤ (daysInMonthList y).getD (m - 1) 0)

/-- datetime.strptime of an eight-digit date: split into year, month and
day and reject calendar-invalid dates with ValueError. -/
def strptimeYMD (s : String) : Except PyErr Date :=
  let y := digitsToNat (s.data.take 4)
  let m := digitsToNat ((s.data.drop 4).take 2)
  let d := digitsToNat (s.data.drop 6)
  if isValidDate y m d then .ok ⟨y, m, d⟩ else .error .valueError

/-- Normalize a Python slice index against a length: negative indices
count from the end, and the result is clamped to the valid range. -/
def pyNormIdx (len : Nat) (i : Int) : Nat :=
  if i < 0 then min (i + len).toNat len else min i.toNat len

/-- Slice assignment dset of start colon stop gets vals, with step one:
the selection is the normalized half-open range, and the assigned value
list must have exactly the selection length (h5py rejects shape
mismatches). -/
def sliceAssign (arr : List β) (start stop : Int) (vals : List β) :
    Except PyErr (List β) :=
  let s := pyNormIdx arr.length start
  let e := pyNormIdx arr.length stop
  let cnt := e - s
  if vals.length = cnt then
    .ok (arr.take s ++ vals ++ arr.drop (s + cnt))
  else .error .shapeMismatch

/-- Replace the value stored under a key, keeping its position. -/
def updateAssoc (l : List (String × γ)) (k : String) (v : γ) : List (String × γ) :=
  l.map (fun kv => if kv.1 = k then (k, v) else kv)

/-- The body of the inner file loop of clean_merra (lines 242-280):
search the date regex in the basename (warning and skip when it does not
match), parse the date, compute the start hour as the whole-hour
difference from the group year start; a file whose physical open fails is
logged and skipped; otherwise create the latitude, longitude and time
axes on first need, then for every non-axis variable create its zero
filled full-year dataset on first encounter and slice-assign the file
values at the start hour, under the lowercased name. -/
def process_file {α β : Type} (zero : β) (dsM extM : List Char) (grpStart : Nat)
    (numhours : Nat) (hoursList : List Nat) (o : OutFile α β) (f : H4File α β) :
    Except PyErr (OutFile α β) :=
  match reSearch (matchDStart dsM extM) (basename f.path).data with
  | none => .ok o
  | some dateStr => do
    let cur ← strptimeYMD dateStr
    let start_hour : Int := (dtHours cur : Int) - (grpStart : Int)
    if f.corrupt then
      .ok o
    else
      let o1 : OutFile α β :=
        if o.latitude.isNone || o.longitude.isNone || o.time.isNone then
          { o with latitude := some f.lats, longitude := some f.longs,
                   time := some (hoursList.map to_timestamp) }
        else o
      (f.vars.filter (fun vi =>
          decide (vi.1 ≠ "latitude" ∧ vi.1 ≠ "longitude" ∧ vi.1 ≠ "time"))).foldlM
        (fun oc vi => do
          let key := lowerStr vi.1
          let oc1 : OutFile α β :=
            if (oc.dsets.lookup key).isNone then
              { oc with dsets := oc.dsets ++ [(key, List.replicate numhours zero)] }
            else oc
          let arr := (oc1.dsets.lookup key).getD []
          let arr2 ← sliceAssign arr start_hour (start_hour + f.time.length) vi.2
          pure { oc1 with dsets := updateAssoc oc1.dsets key arr2 }) o1

/-- One group iteration of clean_merra: build the hour axis of the group
year and fold the file loop over the files of the group. -/
def process_group {α β : Type} (zero : β) (dsM extM : List Char) (year : Nat)
    (files : List (H4File α β)) : Except PyErr (OutFile α β) :=
  files.foldlM
    (process_file zero dsM extM (dtHours ⟨year, 1, 1⟩) (yearHours year).length
      (yearHours year))
    emptyOutFile

/-- The outer group loop of clean_merra: unpacking the pair pattern over
a group whose key is None raises TypeError; otherwise the group is
processed into its yearly store. -/
def cleanLoop {α β : Type} (zero : β) (dsM extM : List Char)
    (readF : String → H4File α β) :
    List (Option (String × String) × List String) →
    List ((String × String) × OutFile α β) →
    Except PyErr (List ((String × String) × OutFile α β))
  | [], acc => .ok acc
  | (none, _) :: _, _ => .error .typeError
  | (some (dataset, year), fs) :: rest, acc => do
    let o ← process_group zero dsM extM (digitsToNat year.data) (fs.map readF)
    cleanLoop zero dsM extM readF rest (acc ++ [((dataset, year), o)])

/-- clean_merra (src/wdata/merra.py lines 202-280) on the sorted file
listing of the source directory: reject unknown datatypes, group the
paths by the year regex over the dataset of the datatype, and merge each
group.  The content of each path is supplied by the read oracle. -/
def clean_merra {α β : Type} (zero : β) (datatype ext : String)
    (files : List String) (readF : String → H4File α β) :
    Except PyErr (List ((String × String) × OutFile α β)) :=
  match (merraSettings.datatypes).lookup datatype with
  | none => .error .argumentError
  | some spec =>
    cleanLoop zero spec.dataset.data ext.data readF
      (groupByKey (fun p => reSearch (matchYStart spec.dataset.data ext.data) p.data)
        files) []

theorem groupByKey_key_eq [DecidableEq κ] (kf : String → Option κ) :
    ∀ (files : List String) (k : Option κ) (g : List String),
      (k, g) ∈ groupByKey kf files → ∀ x ∈ g, kf x = k := by
  intro files
  induction files with
  | nil => intro k g hmem; simp [groupByKey] at hmem
  | cons a xs ih =>
    intro k g hmem x hx
    simp only [groupByKey] at hmem
    cases hrec : groupByKey kf xs with
    | nil =>
      rw [hrec] at hmem
      simp only [List.mem_singleton, Prod.mk.injEq] at hmem
      obtain ⟨hk, hg⟩ := hmem
      subst hk; subst hg
      simp only [List.mem_singleton] at hx
      subst hx
      rfl
    | cons p rest =>
      rw [hrec] at hmem
      obtain ⟨k0, g0⟩ := p
      dsimp only at hmem
      by_cases he : kf a = k0
      · rw [if_pos he] at hmem
        rcases List.mem_cons.mp hmem with heq | hmem2
        · simp only [Prod.mk.injEq] at heq
          obtain ⟨hk, hg⟩ := heq
          subst hg
          rcases List.mem_cons.mp hx with rfl | hxg0
          · rw [hk]; exact he
          · rw [hk]
            exact ih k0 g0 (by rw [hrec]; exact List.mem_cons_self _ _) x hxg0
        · exact ih k g (by rw [hrec]; exact List.mem_cons_of_mem _ hmem2) x hx
      · rw [if_neg he] at hmem
        rcases List.mem_cons.mp hmem with heq | hmem2
        · simp only [Prod.mk.injEq] at heq
          obtain ⟨hk, hg⟩ := heq
          subst hk; subst hg
          simp only [List.mem_singleton] at hx
          subst hx
          rfl
        · exact ih k g (by rw [hrec]; exact hmem2) x hx

theorem groupByKey_mem_exists [DecidableEq κ] (kf : String → Option κ) :
    ∀ (files : List String) (x : String), x ∈ files →
      ∃ g, (kf x, g) ∈ groupByKey kf files ∧ x ∈ g := by
  intro files
  induction files with
  | nil => intro x hx; simp at hx
  | cons a xs ih =>
    intro x hx
    rcases List.mem_cons.mp hx with rfl | hxs
    · simp only [groupByKey]
      cases hrec : groupByKey kf xs with
      | nil => exact ⟨[x], by simp, by simp⟩
      | cons p rest =>
        obtain ⟨k0, g0⟩ := p
        dsimp only
        by_cases he : kf x = k0
        · refine ⟨x :: g0, ?_, by simp⟩
          rw [if_pos he, he]
          exact List.mem_cons_self _ _
        · refine ⟨[x], ?_, by simp⟩
          rw [if_neg he]
          exact List.mem_cons_self _ _
    · obtain ⟨g, hg, hxg⟩ := ih x hxs
      simp only [groupByKey]
      cases hrec : groupByKey kf xs with
      | nil => rw [hrec] at hg; simp at hg
      | cons p rest =>
        rw [hrec] at hg
        obtain ⟨k0, g0⟩ := p
        dsimp only
        by_cases he : kf a = k0
        · rw [if_pos he]
          rcases List.mem_cons.mp hg with heq | hg2
          · simp only [Prod.mk.injEq] at heq
            obtain ⟨hk, hgg⟩ := heq
            subst hgg
            refine ⟨a :: g, ?_, List.mem_cons_of_mem _ hxg⟩
            rw [hk]
            exact List.mem_cons_self _ _
          · exact ⟨g, List.mem_cons_of_mem _ hg2, hxg⟩
        · rw [if_neg he]
          exact ⟨g, List.mem_cons_of_mem _ hg, hxg⟩

theorem cleanLoop_none_error {α β : Type} (zero : β) (dsM extM : List Char)
    (readF : String → H4File α β) :
    ∀ (groups : List (Option (String × String) × List String))
      (acc : List ((String × String) × OutFile α β)),
      (∃ p ∈ groups, p.1 = none) →
      ∀ r, cleanLoop zero dsM extM readF groups acc ≠ .ok r := by
  intro groups
  induction groups with
  | nil =>
    intro acc h
    obtain ⟨p, hp, _⟩ := h
    simp at hp
  | cons p rest ih =>
    intro acc h r
    obtain ⟨q, hq, hq1⟩ := h
    obtain ⟨pk, pfs⟩ := p
    cases pk with
    | none => simp [cleanLoop]
    | some kv =>
      obtain ⟨ds, yr⟩ := kv
      simp only [cleanLoop]
      cases hpg : process_group zero dsM extM (digitsToNat yr.data) (pfs.map readF) with
      | error e => simp [hpg, Bind.bind, Except.bind]
      | ok o =>
        simp only [hpg, Bind.bind, Except.bind]
        apply ih
        rcases List.mem_cons.mp hq with rfl | hq2
        · simp at hq1
        · exact ⟨q, hq2, hq1⟩

/-- Claim C6: a file whose name the year regex does not match is recorded
in the classification warnings, belongs to no group with a dataset/year
key, and is never part of a group the consolidation loop processes: the
consolidation run over any listing that contains it never reaches a
successful result, because the only group holding the file carries the
None key on which the loop raises TypeError. -/
theorem unparsable_filename_excluded {α β : Type} (zero : β)
    (files : List String) (readF : String → H4File α β) (f : String)
    (hf : f ∈ files)
    (hbad : reSearch (matchYStart "tavg1_2d_slv_Nx".data "hdf".data) f.data = none) :
    f ∈ classifyWarnings
        (fun p => reSearch (matchYStart "tavg1_2d_slv_Nx".data "hdf".data) p.data)
        files ∧
    (∀ key g, (some key, g) ∈ groupByKey
        (fun p => reSearch (matchYStart "tavg1_2d_slv_Nx".data "hdf".data) p.data)
        files → f ∉ g) ∧
    (∀ r, clean_merra zero "wind" "hdf" files readF ≠ .ok r) := by
  refine ⟨?_, ?_, ?_⟩
  · simp [classifyWarnings, List.mem_filter, hf, hbad]
  · intro key g hg hfg
    have hkey := groupByKey_key_eq
      (fun p => reSearch (matchYStart "tavg1_2d_slv_Nx".data "hdf".data) p.data)
      files (some key) g hg f hfg
    simp only [hbad] at hkey
    exact Option.noConfusion hkey
  · intro r
    obtain ⟨g, hgmem, hfg⟩ := groupByKey_mem_exists
      (fun p => reSearch (matchYStart "tavg1_2d_slv_Nx".data "hdf".data) p.data)
      files f hf
    rw [hbad] at hgmem
    have : (merraSettings.datatypes).lookup "wind" = some merraWind := rfl
    simp only [clean_merra, this]
    exact cleanLoop_none_error zero "tavg1_2d_slv_Nx".data "hdf".data readF _ []
      ⟨(none, g), hgmem, rfl⟩ r

/-- Witness for claim C6: a listing of one file whose name does not match
the convention. -/
theorem unparsable_filename_excluded_witness :
    "strange.hdf" ∈ classifyWarnings
        (fun p => reSearch (matchYStart "tavg1_2d_slv_Nx".data "hdf".data) p.data)
        ["strange.hdf"] ∧
    (∀ key g, (some key, g) ∈ groupByKey
        (fun p => reSearch (matchYStart "tavg1_2d_slv_Nx".data "hdf".data) p.data)
        ["strange.hdf"] → "strange.hdf" ∉ g) ∧
    (∀ r, clean_merra (0 : Nat) "wind" "hdf" ["strange.hdf"]
        (fun _ => (⟨"", false, [], [], [], []⟩ : H4File Nat Nat)) ≠ .ok r) :=
  unparsable_filename_excluded 0 ["strange.hdf"]
    (fun _ => (⟨"", false, [], [], [], []⟩ : H4File Nat Nat)) "strange.hdf"
    (by simp) (by decide)

theorem sliceAssign_nat {β : Type} (arr : List β) (s n : Nat) (vals : List β)
    (hlen : vals.length = n) (hb : s + n ≤ arr.length) :
    sliceAssign arr (s : Int) ((s : Int) + (n : Int)) vals =
      .ok (arr.take s ++ vals ++ arr.drop (s + n)) := by
  have hs : pyNormIdx arr.length (s : Int) = s := by
    unfold pyNormIdx
    rw [if_neg (by omega)]
    omega
  have he : pyNormIdx arr.length ((s : Int) + (n : Int)) = s + n := by
    unfold pyNormIdx
    rw [if_neg (by omega)]
    omega
  have hc : s + n - s = n := by omega
  simp only [sliceAssign, hs, he, hc]
  rw [if_pos hlen]

theorem write_length {β : Type} (arr vals : List β) (s : Nat)
    (hb : s + vals.length ≤ arr.length) :
    (arr.take s ++ vals ++ arr.drop (s + vals.length)).length = arr.length := by
  simp only [List.length_append, List.length_take, List.length_drop]
  omega

theorem write_getD {β : Type} (arr vals : List β) (s i : Nat) (dflt : β)
    (hb : s + vals.length ≤ arr.length) :
    (arr.take s ++ vals ++ arr.drop (s + vals.length)).getD i dflt =
      if s ≤ i ∧ i < s + vals.length then vals.getD (i - s) dflt
      else arr.getD i dflt := by
  have hts : (arr.take s).length = s := by
    simp only [List.length_take]
    omega
  have htv : (arr.take s ++ vals).length = s + vals.length := by
    simp only [List.length_append, hts]
  simp only [List.getD_eq_getElem?_getD, ← List.append_assoc]
  by_cases h1 : i < s
  · rw [if_neg (by omega)]
    rw [List.getElem?_append_left (by rw [htv]; omega),
      List.getElem?_append_left (by rw [hts]; omega),
      List.getElem?_take_of_lt h1]
  · by_cases h2 : i < s + vals.length
    · rw [if_pos ⟨by omega, h2⟩]
      rw [List.getElem?_append_left (by rw [htv]; omega),
        List.getElem?_append_right (by rw [hts]; omega), hts]
    · rw [if_neg (by omega)]
      rw [List.getElem?_append_right (by rw [htv]; omega), htv, List.getElem?_drop]
      congr 2
      omega

/-- Claim C9: two files of one group whose dates give disjoint hour
ranges of the same variable merge into the union of their contributions,
with every cell outside each range untouched by that write: inside the
first range the merged array holds the first file values, inside the
second the second file values, and elsewhere the zero fill of the dataset
creation. -/
theorem disjoint_ranges_merge {α β : Type} (zero : β) (year : Nat)
    (f1 f2 : H4File α β) (ds1 ds2 : String) (d1 d2 : Date) (v : String)
    (data1 data2 : List β) (s1 s2 n1 n2 : Nat)
    (hm1 : reSearch (matchDStart "tavg1_2d_slv_Nx".data "hdf".data)
      (basename f1.path).data = some ds1)
    (hp1 : strptimeYMD ds1 = .ok d1)
    (hc1 : f1.corrupt = false)
    (hv1 : f1.vars = [(v, data1)])
    (ht1 : f1.time.length = n1)
    (hn1 : data1.length = n1)
    (hd1 : dtHours d1 = dtHours ⟨year, 1, 1⟩ + s1)
    (hb1 : s1 + n1 ≤ (yearHours year).length)
    (hm2 : reSearch (matchDStart "tavg1_2d_slv_Nx".data "hdf".data)
      (basename f2.path).data = some ds2)
    (hp2 : strptimeYMD ds2 = .ok d2)
    (hc2 : f2.corrupt = false)
    (hv2 : f2.vars = [(v, data2)])
    (ht2 : f2.time.length = n2)
    (hn2 : data2.length = n2)
    (hd2 : dtHours d2 = dtHours ⟨year, 1, 1⟩ + s2)
    (hb2 : s2 + n2 ≤ (yearHours year).length)
    (hvn : v ≠ "latitude" ∧ v ≠ "longitude" ∧ v ≠ "time")
    (hdisj : s1 + n1 ≤ s2 ∨ s2 + n2 ≤ s1) :
    ∃ arr : List β,
      (process_group zero "tavg1_2d_slv_Nx".data "hdf".data year [f1, f2]).map
        (fun o => o.dsets) = .ok [(lowerStr v, arr)] ∧
      arr.length = (yearHours year).length ∧
      ∀ i < (yearHours year).length,
        arr.getD i zero =
          if s1 ≤ i ∧ i < s1 + n1 then data1.getD (i - s1) zero
          else if s2 ≤ i ∧ i < s2 + n2 then data2.getD (i - s2) zero
          else zero := by
  have hN : (List.replicate (yearHours year).length zero).length =
      (yearHours year).length := List.length_replicate _ _
  have hvd : decide (v ≠ "latitude" ∧ v ≠ "longitude" ∧ v ≠ "time") = true :=
    decide_eq_true hvn
  have hst1 : ((dtHours d1 : Int) - (dtHours ⟨year, 1, 1⟩ : Int)) = (s1 : Int) := by
    rw [hd1]; push_cast; ring
  have hst2 : ((dtHours d2 : Int) - (dtHours ⟨year, 1, 1⟩ : Int)) = (s2 : Int) := by
    rw [hd2]; push_cast; ring
  have hslice1 := sliceAssign_nat (List.replicate (yearHours year).length zero)
    s1 n1 data1 hn1 (by rw [hN]; omega)
  have hbA0 : s1 + data1.length ≤ (List.replicate (yearHours year).length zero).length := by
    rw [hN, hn1]; omega
  have hA1len : ((List.replicate (yearHours year).length zero).take s1 ++ data1 ++
      (List.replicate (yearHours year).length zero).drop (s1 + data1.length)).length =
      (yearHours year).length := by
    rw [write_length _ _ _ hbA0, hN]
  have hslice2 := sliceAssign_nat ((List.replicate (yearHours year).length zero).take s1 ++
      data1 ++ (List.replicate (yearHours year).length zero).drop (s1 + data1.length))
    s2 n2 data2 hn2 (by rw [hA1len]; omega)
  have hbA1 : s2 + data2.length ≤ ((List.replicate (yearHours year).length zero).take s1 ++
      data1 ++ (List.replicate (yearHours year).length zero).drop (s1 + data1.length)).length := by
    rw [hA1len, hn2]; omega
  have hA : process_file zero "tavg1_2d_slv_Nx".data "hdf".data
      (dtHours ⟨year, 1, 1⟩) (yearHours year).length (yearHours year)
      emptyOutFile f1 =
      .ok ⟨some f1.lats, some f1.longs, some ((yearHours year).map to_timestamp),
        [(lowerStr v, (List.replicate (yearHours year).length zero).take s1 ++ data1 ++
          (List.replicate (yearHours year).length zero).drop (s1 + data1.length))]⟩ := by
    unfold process_file
    rw [hm1]
    simp only [hp1, hc1, hv1, ht1, hst1, emptyOutFile, Bind.bind, Except.bind,
      Option.isNone_none, Bool.or_self, Bool.true_or, Bool.or_true, if_true,
      List.filter, hvd, List.foldlM, List.lookup, updateAssoc, List.map,
      Pure.pure, Except.pure, hn1]
    simp [hslice1, updateAssoc, hn1]
  have hB : process_file zero "tavg1_2d_slv_Nx".data "hdf".data
      (dtHours ⟨year, 1, 1⟩) (yearHours year).length (yearHours year)
      (⟨some f1.lats, some f1.longs, some ((yearHours year).map to_timestamp),
        [(lowerStr v, (List.replicate (yearHours year).length zero).take s1 ++ data1 ++
          (List.replicate (yearHours year).length zero).drop (s1 + data1.length))]⟩ :
        OutFile α β) f2 =
      .ok ⟨some f1.lats, some f1.longs, some ((yearHours year).map to_timestamp),
        [(lowerStr v,
          ((List.replicate (yearHours year).length zero).take s1 ++ data1 ++
            (List.replicate (yearHours year).length zero).drop (s1 + data1.length)).take s2 ++
          data2 ++
          ((List.replicate (yearHours year).length zero).take s1 ++ data1 ++
            (List.replicate (yearHours year).length zero).drop (s1 + data1.length)).drop
            (s2 + data2.length))]⟩ := by
    unfold process_file
    rw [hm2]
    simp only [hp2, hc2, hv2, ht2, hst2, Bind.bind, Except.bind,
      Option.isNone_some, Bool.or_self, Bool.false_or, Bool.or_false, if_false,
      List.filter, hvd, List.foldlM, List.lookup, beq_self_eq_true,
      Pure.pure, Except.pure, hn2]
    simp only [Option.getD_some, Bool.false_eq_true, if_false]
    rw [hslice2]
    simp [updateAssoc]
  refine ⟨((List.replicate (yearHours year).length zero).take s1 ++ data1 ++
      (List.replicate (yearHours year).length zero).drop (s1 + data1.length)).take s2 ++
      data2 ++
      ((List.replicate (yearHours year).length zero).take s1 ++ data1 ++
        (List.replicate (yearHours year).length zero).drop (s1 + data1.length)).drop
        (s2 + data2.length), ?_, ?_, ?_⟩
  · simp only [process_group, List.foldlM, hA, Bind.bind, Except.bind, hB,
      Pure.pure, Except.pure, Except.map]
  · rw [write_length _ _ _ hbA1, hA1len]
  · intro i hi
    rw [write_getD _ _ _ _ _ hbA1, write_getD _ _ _ _ _ hbA0]
    have hrep : (List.replicate (yearHours year).length zero).getD i zero = zero := by
      rw [List.getD_eq_getElem?_getD, List.getElem?_replicate_of_lt hi]
      rfl
    rw [hrep]
    simp only [hn1, hn2]
    split_ifs <;> first | rfl | omega

set_option maxRecDepth 100000 in
/-- Witness for claim C9: two one-timestep files of the 1980 group, one
for January 1 (hour 0) and one for January 2 (hour 24), sharing the
variable u2m. -/
theorem disjoint_ranges_merge_witness :
    ∃ arr : List Nat,
      (process_group (0 : Nat) "tavg1_2d_slv_Nx".data "hdf".data 1980
        [(⟨"MERRA100.prod.assim.tavg1_2d_slv_Nx.19800101.SUB.hdf", false, [0],
          [], [], [("u2m", [7])]⟩ : H4File Nat Nat),
         (⟨"MERRA100.prod.assim.tavg1_2d_slv_Nx.19800102.SUB.hdf", false, [0],
          [], [], [("u2m", [9])]⟩ : H4File Nat Nat)]).map (fun o => o.dsets) =
        .ok [(lowerStr "u2m", arr)] ∧
      arr.length = (yearHours 1980).length ∧
      ∀ i < (yearHours 1980).length,
        arr.getD i 0 =
          if 0 ≤ i ∧ i < 0 + 1 then [7].getD (i - 0) 0
          else if 24 ≤ i ∧ i < 24 + 1 then [9].getD (i - 24) 0
          else 0 :=
  disjoint_ranges_merge 0 1980
    (⟨"MERRA100.prod.assim.tavg1_2d_slv_Nx.19800101.SUB.hdf", false, [0],
      [], [], [("u2m", [7])]⟩ : H4File Nat Nat)
    (⟨"MERRA100.prod.assim.tavg1_2d_slv_Nx.19800102.SUB.hdf", false, [0],
      [], [], [("u2m", [9])]⟩ : H4File Nat Nat)
    "19800101" "19800102" ⟨1980, 1, 1⟩ ⟨1980, 1, 2⟩ "u2m" [7] [9] 0 24 1 1
    (by decide) rfl rfl rfl rfl rfl (by decide)
    (by rw [yearHours, hourrange_length]; decide)
    (by decide) rfl rfl rfl rfl rfl (by decide)
    (by rw [yearHours, hourrange_length]; decide)
    (by decide) (by decide)

end WData
